import Mathlib

set_option autoImplicit false

/-!
# Verification of the `libbitmap` BMP codec (`bitmap.h`)

Shallow embedding of the C header-only bitmap library: the packed
`BITMAPFILEHEADER` / `BITMAPV4HEADER` structures, the encoder
`GenerateBitMapData`, the byte-stream writer `WriteToBitMapFile`, the decoder
`ReadBitMap`, the pixel operations `InvertPixel` and `SetPixel`, and the
resource release routine `cleanup`.

Modelling conventions:
* Machine integers are `Nat` carrying the unsigned bit pattern; `uint32_t`
  stores apply `% 4294967296` where the C code can wrap, and `int32_t`
  values are interpreted through `toI32` / produced through `toU32`.
  Signed `int` overflow in C is undefined behaviour, so theorems carry
  explicit range hypotheses keeping every intermediate inside `int` range.
* Byte buffers and file contents are `List Nat` of byte values; `malloc`
  is modelled as a zero-initialised buffer (the C contents of unwritten
  bytes are indeterminate, and no theorem below relies on them being zero
  except where explicitly discussed for the decoder's row loop).
* `FILE *` streams are modelled by the byte list they contain; `fread` of a
  struct is modelled by the field-by-field little-endian parse of the
  packed struct layout, `fwrite` by its serialisation.
-/

namespace Bitmap

/-- Unsigned 32-bit bit pattern of a C `int32_t` value (the usual arithmetic
conversion applied when an `int32_t` meets a `uint32_t`). -/
def toU32 (z : Int) : Nat := (z % 4294967296).toNat

/-- Signed `int32_t` value denoted by an unsigned 32-bit bit pattern. -/
def toI32 (n : Nat) : Int :=
  if n % 4294967296 < 2147483648 then ((n % 4294967296 : Nat) : Int)
  else ((n % 4294967296 : Nat) : Int) - 4294967296

/-- Macro `#define ROW_SIZE(bits_per_pixel, image_width)
      (((bits_per_pixel * image_width + 31) / 32) * 4)` —
C `int` arithmetic on nonnegative operands, which agrees with `Nat`
arithmetic as long as no intermediate exceeds `int` range (theorems carry
that bound explicitly). -/
def ROW_SIZE (bits_per_pixel image_width : Nat) : Nat :=
  ((bits_per_pixel * image_width + 31) / 32) * 4

/-- Macro `#define IMAGE_SIZE(row_size, height) (row_size * height)` over the
unsigned 32-bit operands the C expansion receives. -/
def IMAGE_SIZE (row_size height : Nat) : Nat := row_size * height

/-- Macro `#define S_RGB 0x42475273`. -/
def S_RGB : Nat := 0x42475273

/-- Packed `BITMAPFILEHEADER` (14 bytes on disk). All fields hold the
unsigned bit pattern of the corresponding C field. -/
structure BITMAPFILEHEADER where
  header_field : Nat × Nat
  size : Nat
  reserved1 : Nat
  reserved2 : Nat
  offset : Nat
  deriving Repr, DecidableEq

/-- Packed `BITMAPV4HEADER` (108 bytes on disk). `bitmap_width` and
`bitmap_height` hold the unsigned bit pattern of the C `int32_t` fields. -/
structure BITMAPV4HEADER where
  header_size : Nat
  bitmap_width : Nat
  bitmap_height : Nat
  n_color_planes : Nat
  bits_per_pixel : Nat
  compression_method : Nat
  image_size : Nat
  horizontal_resolution : Nat
  vertical_resolution : Nat
  n_colors_in_palette : Nat
  important_colors : Nat
  red_mask : Nat
  green_mask : Nat
  blue_mask : Nat
  alpha_mask : Nat
  color_space : Nat
  color_end_points : List Nat
  red_gamma : Nat
  green_gamma : Nat
  blue_gamma : Nat
  deriving Repr, DecidableEq

/-- The `BITMAP` structure: `FILE *file` is modelled by a flag recording
whether a stream is attached, `uint8_t *pixels` by the byte list. -/
structure BITMAP where
  file : Bool
  file_header : BITMAPFILEHEADER
  info_header : BITMAPV4HEADER
  pixels : List Nat
  deriving Repr, DecidableEq

/-- Function `GenerateBitMapData(width, height, bits_per_pixel, pixels, compression)`.
The row loop `for (int y = 0; y < height; ++y)` copies `width * pixel_size`
input bytes and then `row_size - width*pixel_size` zero padding bytes per
row; for `height <= 0` it runs zero times.  The `malloc(image_size)` pixel
buffer is modelled zero-initialised beyond the bytes the loop writes.
The C struct leaves `bitmap->file` unset here (it is only assigned by
`CreateBitMap`), modelled as `false`. -/
def GenerateBitMapData (width height : Int) (bits_per_pixel : Nat)
    (pixels : List Nat) (compression : Nat) : BITMAP :=
  let row_size := ROW_SIZE bits_per_pixel width.toNat
  let image_size := IMAGE_SIZE row_size (toU32 height) % 4294967296
  let size := (14 + 108 + image_size) % 4294967296
  let file_header : BITMAPFILEHEADER :=
    { header_field := (66, 77)  -- the bytes B, M
      size := size
      reserved1 := 0
      reserved2 := 0
      offset := 14 + 108 }     -- sizeof(BITMAPFILEHEADER) + sizeof(BITMAPV4HEADER)
  let info_header : BITMAPV4HEADER :=
    { header_size := 108
      bitmap_width := toU32 width
      bitmap_height := toU32 height
      n_color_planes := 1
      bits_per_pixel := bits_per_pixel % 65536
      compression_method := compression % 4294967296
      image_size := image_size
      horizontal_resolution := 2835
      vertical_resolution := 2835
      n_colors_in_palette := 0
      important_colors := 0
      red_mask := if bits_per_pixel = 32 then 0x00ff0000 else 0
      green_mask := if bits_per_pixel = 32 then 0x0000ff00 else 0
      blue_mask := if bits_per_pixel = 32 then 0x000000ff else 0
      alpha_mask := if bits_per_pixel = 32 then 0xff000000 else 0
      color_space := S_RGB
      color_end_points := List.replicate 9 0
      red_gamma := 0
      green_gamma := 0
      blue_gamma := 0 }
  let pixel_size := bits_per_pixel / 8
  let w := width.toNat
  let body := (List.range height.toNat).flatMap (fun y =>
    (pixels.drop (y * (w * pixel_size))).take (w * pixel_size) ++
      List.replicate (row_size - w * pixel_size) 0)
  { file := false
    file_header := file_header
    info_header := info_header
    pixels := body ++ List.replicate (image_size - body.length) 0 }

/-- The exact 2×2 32bpp pixel data of the specification scenario:
(255,0,0,255), (0,255,0,255), (0,0,255,255), (255,255,255,0). -/
def scenarioPixels : List Nat :=
  [255, 0, 0, 255, 0, 255, 0, 255, 0, 0, 255, 255, 255, 255, 255, 0]

/-- Little-endian bytes of a packed 16-bit field. -/
def u16le (n : Nat) : List Nat := [n % 256, n / 256 % 256]

/-- Little-endian bytes of a packed 32-bit field. -/
def u32le (n : Nat) : List Nat :=
  [n % 256, n / 256 % 256, n / 65536 % 256, n / 16777216 % 256]

/-- Effect of `fwrite(&bitmap_data->file_header, sizeof(...), 1, f)`: the 14 packed
bytes of `BITMAPFILEHEADER` in declaration order. -/
def serializeFileHeader (h : BITMAPFILEHEADER) : List Nat :=
  [h.header_field.1 % 256, h.header_field.2 % 256] ++
    u32le h.size ++ u16le h.reserved1 ++ u16le h.reserved2 ++ u32le h.offset

/-- The first 60 packed bytes of `BITMAPV4HEADER` (through `color_space`). -/
def serializeInfoHeaderPrefix (h : BITMAPV4HEADER) : List Nat :=
  u32le h.header_size ++ u32le h.bitmap_width ++ u32le h.bitmap_height ++
    u16le h.n_color_planes ++ u16le h.bits_per_pixel ++
    u32le h.compression_method ++ u32le h.image_size ++
    u32le h.horizontal_resolution ++ u32le h.vertical_resolution ++
    u32le h.n_colors_in_palette ++ u32le h.important_colors ++
    u32le h.red_mask ++ u32le h.green_mask ++ u32le h.blue_mask ++
    u32le h.alpha_mask ++ u32le h.color_space

/-- The 36 packed bytes of `uint32_t color_end_points[9]` (the list is
normalised to exactly 9 entries, matching the fixed C array length). -/
def serializeEndPoints (eps : List Nat) : List Nat :=
  ((eps ++ List.replicate 9 0).take 9).flatMap u32le

/-- Effect of `fwrite(&bitmap_data->info_header, sizeof(...), 1, f)`: the 108 packed
bytes of `BITMAPV4HEADER` in declaration order. -/
def serializeInfoHeader (h : BITMAPV4HEADER) : List Nat :=
  serializeInfoHeaderPrefix h ++ serializeEndPoints h.color_end_points ++
    u32le h.red_gamma ++ u32le h.green_gamma ++ u32le h.blue_gamma

/-- Function `WriteToBitMapFile(bitmap_file, bitmap_data)`: the byte stream written
to the file — file header, info header, then `image_size` bytes of the
pixel buffer. -/
def WriteToBitMapFile (b : BITMAP) : List Nat :=
  serializeFileHeader b.file_header ++
    (serializeInfoHeader b.info_header ++ b.pixels.take b.info_header.image_size)

/-- A 16-bit little-endian read of two stream bytes (each byte of a file
is a `uint8_t`, hence the `% 256` normalisation). -/
def rdU16 (bs : List Nat) (i : Nat) : Nat :=
  bs.getD i 0 % 256 + 256 * (bs.getD (i + 1) 0 % 256)

/-- A 32-bit little-endian read of four stream bytes. -/
def rdU32 (bs : List Nat) (i : Nat) : Nat :=
  bs.getD i 0 % 256 + 256 * (bs.getD (i + 1) 0 % 256) +
    65536 * (bs.getD (i + 2) 0 % 256) + 16777216 * (bs.getD (i + 3) 0 % 256)

/-- Effect of `fread(&bitmap.file_header, sizeof(...), 1, f)` at the start of the
stream: field-by-field parse of the packed 14-byte layout. -/
def parseFileHeader (bs : List Nat) : BITMAPFILEHEADER :=
  { header_field := (bs.getD 0 0 % 256, bs.getD 1 0 % 256)
    size := rdU32 bs 2
    reserved1 := rdU16 bs 6
    reserved2 := rdU16 bs 8
    offset := rdU32 bs 10 }

/-- Effect of `fread(&bitmap.info_header, sizeof(...), 1, f)` directly after the
file header: field-by-field parse of the packed 108-byte layout starting
at stream offset 14. -/
def parseInfoHeader (bs : List Nat) : BITMAPV4HEADER :=
  { header_size := rdU32 bs 14
    bitmap_width := rdU32 bs 18
    bitmap_height := rdU32 bs 22
    n_color_planes := rdU16 bs 26
    bits_per_pixel := rdU16 bs 28
    compression_method := rdU32 bs 30
    image_size := rdU32 bs 34
    horizontal_resolution := rdU32 bs 38
    vertical_resolution := rdU32 bs 42
    n_colors_in_palette := rdU32 bs 46
    important_colors := rdU32 bs 50
    red_mask := rdU32 bs 54
    green_mask := rdU32 bs 58
    blue_mask := rdU32 bs 62
    alpha_mask := rdU32 bs 66
    color_space := rdU32 bs 70
    color_end_points := [rdU32 bs 74, rdU32 bs 78, rdU32 bs 82, rdU32 bs 86,
      rdU32 bs 90, rdU32 bs 94, rdU32 bs 98, rdU32 bs 102, rdU32 bs 106]
    red_gamma := rdU32 bs 110
    green_gamma := rdU32 bs 114
    blue_gamma := rdU32 bs 118 }

/-- Expression `(x + 3) & ~3` clears the low two bits of `x + 3`; for values below
`2^32` this equals subtracting the remainder mod 4. -/
def andNot3 (x : Nat) : Nat := x - x % 4

/-- Unsigned `uint32_t` subtraction with wrap-around (`row_size - padded_row_size`
in `ReadBitMap`'s `fseek` argument). -/
def u32sub (a b : Nat) : Nat := (a + (4294967296 - b % 4294967296)) % 4294967296

/-- Effect of `fread(ptr, 1, n, f)` at stream position `pos`: the bytes actually
available there, at most `n` of them. -/
def readBytes (bs : List Nat) (pos n : Nat) : List Nat := (bs.drop pos).take n

/-- An in-place write of `data` into `buf` starting at byte offset `pos`
(the effect of `fread` into `ptr`). -/
def writeAt (buf : List Nat) (pos : Nat) (data : List Nat) : List Nat :=
  buf.take pos ++ (data ++ buf.drop (pos + data.length))

/-- Function `ReadBitMap(file_name)`: parses both headers from the stream, computes
`row_size` (`ROW_SIZE` over the `int32_t` width; the claims below restrict
to nonnegative widths, where C `int` and `Nat` arithmetic agree),
`pixel_size` and `padded_row_size = (width*pixel_size + 3) & ~3`, seeks to
`file_header.offset`, then for each of the `bitmap_height` rows (an `int`
loop, so zero iterations when the signed height is not positive) reads
`padded_row_size` bytes into the buffer and advances the destination
pointer by only `width * pixel_size`.  Each loop iteration advances the
stream position by `padded_row_size` plus the `uint32_t` difference
`row_size - padded_row_size` passed to `fseek` (the claims' hypotheses
keep every read inside the stream, where this model of `fread` is exact).
The `malloc(image_size)` destination buffer is modelled zero-initialised;
the C contents of bytes the loop never writes are indeterminate. -/
def ReadBitMap (bs : List Nat) : BITMAP :=
  let file_header := parseFileHeader bs
  let info_header := parseInfoHeader bs
  let w := (toI32 info_header.bitmap_width).toNat
  let row_size := ROW_SIZE info_header.bits_per_pixel w
  let pixel_size := info_header.bits_per_pixel / 8
  let padded_row_size := andNot3 (w * pixel_size + 3)
  let rows := (toI32 info_header.bitmap_height).toNat
  let pixels := (List.range rows).foldl
    (fun buf y =>
      writeAt buf (y * (w * pixel_size))
        (readBytes bs
          (file_header.offset + y * (padded_row_size + u32sub row_size padded_row_size))
          padded_row_size))
    (List.replicate info_header.image_size 0)
  { file := false
    file_header := file_header
    info_header := info_header
    pixels := pixels }

/-- One iteration of the `InvertPixel` loop body at loop counter `k`
(C index `i = 4 * k`): `pixels[i] = 255 - pixels[i]` for the blue, green
and red bytes in turn.  `List.set` is a no-op out of bounds, where the C
store would write past the buffer. -/
def invertStep (px : List Nat) (k : Nat) : List Nat :=
  let i := 4 * k
  let px1 := px.set i (255 - px.getD i 0)
  let px2 := px1.set (i + 1) (255 - px1.getD (i + 1) 0)
  px2.set (i + 2) (255 - px2.getD (i + 2) 0)

/-- Function `InvertPixel(pixels, image_size)`: the loop
`for (int i = 0; i < image_size; i += 4)` runs `(image_size + 3) / 4`
times with `i = 4 * k`. -/
def InvertPixel (pixels : List Nat) (image_size : Nat) : List Nat :=
  (List.range ((image_size + 3) / 4)).foldl invertStep pixels

/-- The buffer indices the `InvertPixel` loop reads and writes
(`pixels[i]`, `pixels[i+1]`, `pixels[i+2]` for each `i = 4k` with
`4k < image_size`). -/
def invertAccessedIndices (image_size : Nat) : List Nat :=
  (List.range ((image_size + 3) / 4)).flatMap (fun k => [4 * k, 4 * k + 1, 4 * k + 2])

/-- Presence of the two owned resources of a `BITMAP` as `cleanup` sees
them: whether `bmp->pixels` and `bmp->file` are non-NULL. -/
structure ResourceState where
  pixels : Bool
  file : Bool
  deriving Repr, DecidableEq

/-- Observable effects of `cleanup`: `free(bmp->pixels)`,
`fclose(bmp->file)`, and the `fprintf(stderr, ...)` diagnostics. -/
inductive CleanupAction where
  | freePixels
  | closeFile
  | diagnostic (msg : String)
  deriving Repr, DecidableEq

/-- Function `cleanup(PBITMAP bmp)`: early return with a diagnostic when `bmp` is
NULL; otherwise frees the pixel buffer when present (else diagnostic),
then independently closes the stream when present (else diagnostic).
Returns the state of the pointed-to structure afterwards together with the
sequence of performed actions. -/
def cleanup (bmp : Option ResourceState) : Option ResourceState × List CleanupAction :=
  match bmp with
  | none => (none, [CleanupAction.diagnostic "bmp is NULL. Not freeing!"])
  | some s =>
    let step1 : ResourceState × List CleanupAction :=
      if s.pixels then ({ s with pixels := false }, [CleanupAction.freePixels])
      else (s, [CleanupAction.diagnostic "bmp->pixels is NULL. Not freeing!"])
    let step2 : ResourceState × List CleanupAction :=
      if step1.1.file then ({ step1.1 with file := false }, [CleanupAction.closeFile])
      else (step1.1, [CleanupAction.diagnostic "bmp->file is NULL. Not closing!"])
    (some step2.1, step1.2 ++ step2.2)

/-- Statement `uint32_t index = (y * file->info_header.bitmap_width + x) * 4;` in
`uint32_t` arithmetic. -/
def SetPixelIndex (x y : Nat) (bmp : BITMAP) : Nat :=
  (y * bmp.info_header.bitmap_width + x) % 4294967296 * 4 % 4294967296

/-- Function `SetPixel(x, y, red, green, blue, alpha, file)`: stores the four
channel bytes at `index .. index+3` in B, G, R, A order.  The C code
performs the stores unconditionally (no bounds check); `List.set` is a
no-op out of bounds where the C store writes past the buffer. -/
def SetPixel (x y red green blue alpha : Nat) (bmp : BITMAP) : BITMAP :=
  let index := SetPixelIndex x y bmp
  { bmp with pixels :=
      ((((bmp.pixels.set index (blue % 256)).set (index + 1) (green % 256)).set
          (index + 2) (red % 256)).set (index + 3) (alpha % 256)) }

end Bitmap

namespace Bitmap

theorem getD_set_eq (l : List Nat) (i v : Nat) (h : i < l.length) :
    (l.set i v).getD i 0 = v := by
  simp [List.getElem?_set_self h]

theorem getD_set_ne (l : List Nat) {i j : Nat} (v : Nat) (h : i ≠ j) :
    (l.set i v).getD j 0 = l.getD j 0 := by
  simp [List.getElem?_set_ne h]

theorem toI32_of_lt {n : Nat} (h : n < 2147483648) : toI32 n = (n : Int) := by
  unfold toI32
  rw [if_pos (by omega), Nat.mod_eq_of_lt (by omega)]

theorem toU32_of_lt {z : Int} (h0 : 0 ≤ z) (h1 : z < 4294967296) :
    toU32 z = z.toNat := by
  unfold toU32
  omega

theorem length_flatMap_u32le (l : List Nat) : (l.flatMap u32le).length = 4 * l.length := by
  induction l with
  | nil => simp
  | cons a t ih => simp [u32le, ih]; omega

theorem length_serializeFileHeader (h : BITMAPFILEHEADER) :
    (serializeFileHeader h).length = 14 := by
  simp [serializeFileHeader, u32le, u16le]

theorem length_serializeInfoHeaderPrefix (h : BITMAPV4HEADER) :
    (serializeInfoHeaderPrefix h).length = 60 := by
  simp [serializeInfoHeaderPrefix, u32le, u16le]

theorem length_serializeEndPoints (eps : List Nat) :
    (serializeEndPoints eps).length = 36 := by
  rw [serializeEndPoints, length_flatMap_u32le, List.length_take]
  simp

theorem length_serializeInfoHeader (h : BITMAPV4HEADER) :
    (serializeInfoHeader h).length = 108 := by
  rw [serializeInfoHeader]
  simp only [List.length_append, length_serializeInfoHeaderPrefix,
    length_serializeEndPoints]
  simp [u32le]

theorem parse_offset_of_serialize (fh : BITMAPFILEHEADER) (rest : List Nat) :
    (parseFileHeader (serializeFileHeader fh ++ rest)).offset = fh.offset % 4294967296 := by
  simp [parseFileHeader, rdU32, serializeFileHeader, u32le, u16le]
  omega

theorem stream_getD_prefix (fh : BITMAPFILEHEADER) (ih : BITMAPV4HEADER)
    (rest : List Nat) (i k : Nat) (hik : i = 14 + k) (hk : k < 60) :
    (serializeFileHeader fh ++ (serializeInfoHeader ih ++ rest)).getD i 0
      = (serializeInfoHeaderPrefix ih).getD k 0 := by
  subst hik
  rw [List.getD_append_right _ _ _ _ (by rw [length_serializeFileHeader]; omega),
    length_serializeFileHeader]
  have h14 : 14 + k - 14 = k := by omega
  rw [h14]
  rw [List.getD_append _ _ _ _ (by rw [length_serializeInfoHeader]; omega)]
  rw [serializeInfoHeader]
  simp only [List.append_assoc]
  rw [List.getD_append _ _ _ _ (by rw [length_serializeInfoHeaderPrefix]; omega)]

theorem parse_width_of_serialize (fh : BITMAPFILEHEADER) (ih : BITMAPV4HEADER)
    (rest : List Nat) :
    (parseInfoHeader (serializeFileHeader fh ++ (serializeInfoHeader ih ++ rest))).bitmap_width
      = ih.bitmap_width % 4294967296 := by
  simp only [parseInfoHeader]
  rw [rdU32,
    stream_getD_prefix fh ih rest 18 4 (by norm_num) (by norm_num),
    stream_getD_prefix fh ih rest (18 + 1) 5 (by norm_num) (by norm_num),
    stream_getD_prefix fh ih rest (18 + 2) 6 (by norm_num) (by norm_num),
    stream_getD_prefix fh ih rest (18 + 3) 7 (by norm_num) (by norm_num)]
  simp [serializeInfoHeaderPrefix, u32le, u16le]
  omega

theorem parse_height_of_serialize (fh : BITMAPFILEHEADER) (ih : BITMAPV4HEADER)
    (rest : List Nat) :
    (parseInfoHeader (serializeFileHeader fh ++ (serializeInfoHeader ih ++ rest))).bitmap_height
      = ih.bitmap_height % 4294967296 := by
  simp only [parseInfoHeader]
  rw [rdU32,
    stream_getD_prefix fh ih rest 22 8 (by norm_num) (by norm_num),
    stream_getD_prefix fh ih rest (22 + 1) 9 (by norm_num) (by norm_num),
    stream_getD_prefix fh ih rest (22 + 2) 10 (by norm_num) (by norm_num),
    stream_getD_prefix fh ih rest (22 + 3) 11 (by norm_num) (by norm_num)]
  simp [serializeInfoHeaderPrefix, u32le, u16le]
  omega

theorem parse_bpp_of_serialize (fh : BITMAPFILEHEADER) (ih : BITMAPV4HEADER)
    (rest : List Nat) :
    (parseInfoHeader (serializeFileHeader fh ++ (serializeInfoHeader ih ++ rest))).bits_per_pixel
      = ih.bits_per_pixel % 65536 := by
  simp only [parseInfoHeader]
  rw [rdU16,
    stream_getD_prefix fh ih rest 28 14 (by norm_num) (by norm_num),
    stream_getD_prefix fh ih rest (28 + 1) 15 (by norm_num) (by norm_num)]
  simp [serializeInfoHeaderPrefix, u32le, u16le]
  omega

theorem parse_image_size_of_serialize (fh : BITMAPFILEHEADER) (ih : BITMAPV4HEADER)
    (rest : List Nat) :
    (parseInfoHeader (serializeFileHeader fh ++ (serializeInfoHeader ih ++ rest))).image_size
      = ih.image_size % 4294967296 := by
  simp only [parseInfoHeader]
  rw [rdU32,
    stream_getD_prefix fh ih rest 34 20 (by norm_num) (by norm_num),
    stream_getD_prefix fh ih rest (34 + 1) 21 (by norm_num) (by norm_num),
    stream_getD_prefix fh ih rest (34 + 2) 22 (by norm_num) (by norm_num),
    stream_getD_prefix fh ih rest (34 + 3) 23 (by norm_num) (by norm_num)]
  simp [serializeInfoHeaderPrefix, u32le, u16le]
  omega

theorem length_writeAt (buf data : List Nat) (pos : Nat)
    (h : pos + data.length ≤ buf.length) :
    (writeAt buf pos data).length = buf.length := by
  simp [writeAt]
  omega

theorem writeAt_getD_lt (buf data : List Nat) (pos j : Nat)
    (hj : j < pos) (hpos : pos ≤ buf.length) :
    (writeAt buf pos data).getD j 0 = buf.getD j 0 := by
  rw [writeAt, List.getD_append _ _ _ _ (by simp [List.length_take]; omega)]
  simp [List.getD_eq_getElem?_getD, List.getElem?_take_of_lt hj]

theorem writeAt_getD_mid (buf data : List Nat) (pos j : Nat)
    (hj1 : pos ≤ j) (hj2 : j < pos + data.length) (hpos : pos ≤ buf.length) :
    (writeAt buf pos data).getD j 0 = data.getD (j - pos) 0 := by
  rw [writeAt]
  have hlt : (buf.take pos).length = pos := by simp [List.length_take]; omega
  rw [List.getD_append_right _ _ _ _ (by rw [hlt]; omega), hlt,
    List.getD_append _ _ _ _ (by omega)]

theorem length_readBytes (bs : List Nat) (pos n : Nat) (h : pos + n ≤ bs.length) :
    (readBytes bs pos n).length = n := by
  simp [readBytes]
  omega

theorem readBytes_getD (bs : List Nat) (pos n i : Nat) (hi : i < n) :
    (readBytes bs pos n).getD i 0 = bs.getD (pos + i) 0 := by
  simp [readBytes, List.getD_eq_getElem?_getD, List.getElem?_take_of_lt hi,
    List.getElem?_drop]

/-- The decoder's row loop: after `n` iterations the buffer keeps its
length, and row `y` of the destination (at packed offset `y * wps`) holds
the `prs` stream bytes read from position `o + y * adv` — in particular the
first `wps` of them, which later iterations never overwrite. -/
theorem decodeRowsAux (bs : List Nat) (o adv prs wps : Nat) (hwps : wps ≤ prs) :
    ∀ (n : Nat) (buf0 : List Nat),
      (∀ y, y < n → y * wps + prs ≤ buf0.length) →
      (∀ y, y < n → o + y * adv + prs ≤ bs.length) →
      (((List.range n).foldl
          (fun buf y => writeAt buf (y * wps) (readBytes bs (o + y * adv) prs)) buf0).length
          = buf0.length) ∧
      (∀ y, y < n → ∀ i, i < wps →
        ((List.range n).foldl
            (fun buf y => writeAt buf (y * wps) (readBytes bs (o + y * adv) prs)) buf0).getD
          (y * wps + i) 0 = bs.getD (o + y * adv + i) 0) := by
  intro n
  induction n with
  | zero =>
    intro buf0 _ _
    exact ⟨rfl, fun y hy => absurd hy (Nat.not_lt_zero y)⟩
  | succ n ih =>
    intro buf0 hbuf hbs
    rw [List.range_succ, List.foldl_append]
    simp only [List.foldl_cons, List.foldl_nil]
    obtain ⟨ihlen, ihval⟩ := ih buf0 (fun y hy => hbuf y (by omega)) (fun y hy => hbs y (by omega))
    have hdata : (readBytes bs (o + n * adv) prs).length = prs :=
      length_readBytes _ _ _ (hbs n (by omega))
    have hposle :
        n * wps ≤ ((List.range n).foldl
          (fun buf y => writeAt buf (y * wps) (readBytes bs (o + y * adv) prs)) buf0).length := by
      rw [ihlen]
      exact le_trans (Nat.le_add_right _ _) (hbuf n (by omega))
    constructor
    · rw [length_writeAt _ _ _ (by rw [hdata, ihlen]; exact hbuf n (by omega)), ihlen]
    · intro y hy i hi
      by_cases hyn : y < n
      · have h1 := Nat.mul_le_mul_right wps hyn
        rw [Nat.succ_mul] at h1
        have hlt : y * wps + i < n * wps :=
          lt_of_lt_of_le (Nat.add_lt_add_left hi _) h1
        rw [writeAt_getD_lt _ _ _ _ hlt hposle]
        exact ihval y hyn i hi
      · have hyeq : y = n := by omega
        subst hyeq
        rw [writeAt_getD_mid _ _ _ _ (Nat.le_add_right _ _)
          (by rw [hdata]; exact Nat.add_lt_add_left (lt_of_lt_of_le hi hwps) _) hposle]
        rw [Nat.add_sub_cancel_left, readBytes_getD _ _ _ _ (lt_of_lt_of_le hi hwps)]

theorem length_flatMap_uniform (f : Nat → List Nat) (c : Nat) :
    ∀ n, (∀ k, k < n → (f k).length = c) →
      ((List.range n).flatMap f).length = n * c := by
  intro n
  induction n with
  | zero => intro _; simp
  | succ n ih =>
    intro hf
    rw [List.range_succ, List.flatMap_append]
    simp only [List.flatMap_cons, List.flatMap_nil, List.append_nil]
    rw [List.length_append, ih (fun k hk => hf k (by omega)), hf n (by omega), Nat.succ_mul]

theorem flatMap_uniform_getD (f : Nat → List Nat) (c y i : Nat) (hi : i < c) :
    ∀ n, y < n → (∀ k, k < n → (f k).length = c) →
      ((List.range n).flatMap f).getD (y * c + i) 0 = (f y).getD i 0 := by
  intro n
  induction n with
  | zero => intro hy _; exact absurd hy (Nat.not_lt_zero y)
  | succ n ih =>
    intro hy hf
    rw [List.range_succ, List.flatMap_append]
    simp only [List.flatMap_cons, List.flatMap_nil, List.append_nil]
    have hlen : ((List.range n).flatMap f).length = n * c :=
      length_flatMap_uniform f c n (fun k hk => hf k (by omega))
    by_cases hyn : y < n
    · have h1 := Nat.mul_le_mul_right c hyn
      rw [Nat.succ_mul] at h1
      rw [List.getD_append _ _ _ _
        (by rw [hlen]; exact lt_of_lt_of_le (Nat.add_lt_add_left hi _) h1)]
      exact ih hyn (fun k hk => hf k (by omega))
    · have hyeq : y = n := by omega
      subst hyeq
      rw [List.getD_append_right _ _ _ _ (by rw [hlen]; exact Nat.le_add_right _ _),
        hlen, Nat.add_sub_cancel_left]

theorem row_size_eq_padded (w bpp : Nat) (hbpp : bpp = 24 ∨ bpp = 32) :
    andNot3 (w * (bpp / 8) + 3) = ROW_SIZE bpp w := by
  rcases hbpp with h | h <;> subst h <;> (unfold andNot3 ROW_SIZE; omega)

theorem row_size_lt (w bpp : Nat) (hbpp : bpp = 24 ∨ bpp = 32)
    (hw : bpp * w + 31 < 2147483648) : ROW_SIZE bpp w < 4294967296 := by
  rcases hbpp with h | h <;> subst h <;> (unfold ROW_SIZE; omega)

theorem wps_le_row_size (w bpp : Nat) (hbpp : bpp = 24 ∨ bpp = 32) :
    w * (bpp / 8) ≤ ROW_SIZE bpp w := by
  rcases hbpp with h | h <;> subst h <;> (unfold ROW_SIZE; omega)

/-- C6 amended: for a well-formed stream whose signed height is positive,
the decoder's pixel buffer holds the de-padded rows packed contiguously in
stream order (top-stored row first): byte `i` of packed row `y` equals
stream byte `offset + y*row_size + i`.  For a negative height the row loop
`for (int y = 0; y < bitmap_height; y++)` executes zero times and no pixel
data is read from the stream at all. -/
theorem decode_packs_rows_positive_height (bs : List Nat) (w h bpp o : Nat)
    (hbpp : (parseInfoHeader bs).bits_per_pixel = bpp)
    (h2432 : bpp = 24 ∨ bpp = 32)
    (hw : (parseInfoHeader bs).bitmap_width = w)
    (hwnum : bpp * w + 31 < 2147483648)
    (hh : (parseInfoHeader bs).bitmap_height = h)
    (hhr : h < 2147483648)
    (ho : (parseFileHeader bs).offset = o)
    (hsize : (parseInfoHeader bs).image_size = ROW_SIZE bpp w * h)
    (hlen : o + ROW_SIZE bpp w * h ≤ bs.length) :
    ∀ y, y < h → ∀ i, i < w * (bpp / 8) →
      (ReadBitMap bs).pixels.getD (y * (w * (bpp / 8)) + i) 0
        = bs.getD (o + y * ROW_SIZE bpp w + i) 0 := by
  intro y hy i hi
  have hwr : w < 2147483648 := by rcases h2432 with hb | hb <;> subst hb <;> omega
  have hwI : (toI32 w).toNat = w := by rw [toI32_of_lt hwr]; omega
  have hhI : (toI32 h).toNat = h := by rw [toI32_of_lt hhr]; omega
  have hprs : andNot3 (w * (bpp / 8) + 3) = ROW_SIZE bpp w := row_size_eq_padded w bpp h2432
  have hrs32 : ROW_SIZE bpp w < 4294967296 := row_size_lt w bpp h2432 hwnum
  have hsub : u32sub (ROW_SIZE bpp w) (ROW_SIZE bpp w) = 0 := by unfold u32sub; omega
  have hwps : w * (bpp / 8) ≤ ROW_SIZE bpp w := wps_le_row_size w bpp h2432
  simp only [ReadBitMap]
  simp only [hbpp, hw, hh, ho, hsize, hwI, hhI, hprs, hsub, Nat.add_zero]
  refine (decodeRowsAux bs o (ROW_SIZE bpp w) (ROW_SIZE bpp w) (w * (bpp / 8)) hwps h
      (List.replicate (ROW_SIZE bpp w * h) 0) ?_ ?_).2 y hy i hi
  · intro z hz
    rw [List.length_replicate]
    calc z * (w * (bpp / 8)) + ROW_SIZE bpp w
        ≤ z * ROW_SIZE bpp w + ROW_SIZE bpp w :=
          Nat.add_le_add_right (Nat.mul_le_mul_left z hwps) _
      _ = (z + 1) * ROW_SIZE bpp w := by rw [Nat.succ_mul]
      _ ≤ h * ROW_SIZE bpp w := Nat.mul_le_mul_right _ hz
      _ = ROW_SIZE bpp w * h := Nat.mul_comm _ _
  · intro z hz
    calc o + z * ROW_SIZE bpp w + ROW_SIZE bpp w
        = o + (z + 1) * ROW_SIZE bpp w := by rw [Nat.succ_mul, Nat.add_assoc]
      _ ≤ o + h * ROW_SIZE bpp w := Nat.add_le_add_left (Nat.mul_le_mul_right _ hz) o
      _ = o + ROW_SIZE bpp w * h := by rw [Nat.mul_comm h]
      _ ≤ bs.length := hlen

/-- A well-formed 1×1 32bpp stream whose stored height is the `int32_t`
bit pattern of -1 (a top-down BMP): headers exactly as the encoder lays
them out, `image_size = 4`, followed by the single stored pixel row
`[9, 9, 9, 9]` at offset 122. -/
def negHeightStream : List Nat :=
  serializeFileHeader
      { header_field := (66, 77), size := 126, reserved1 := 0, reserved2 := 0,
        offset := 122 } ++
    (serializeInfoHeader
        { header_size := 108, bitmap_width := 1, bitmap_height := 4294967295,
          n_color_planes := 1, bits_per_pixel := 32, compression_method := 0,
          image_size := 4, horizontal_resolution := 2835,
          vertical_resolution := 2835, n_colors_in_palette := 0,
          important_colors := 0, red_mask := 0x00ff0000,
          green_mask := 0x0000ff00, blue_mask := 0x000000ff,
          alpha_mask := 0xff000000, color_space := S_RGB,
          color_end_points := List.replicate 9 0, red_gamma := 0,
          green_gamma := 0, blue_gamma := 0 } ++ [9, 9, 9, 9])

/-- The same stream with height +1 (bottom-up), used as a concrete
instance of the positive-height decode theorem. -/
def posHeightStream : List Nat :=
  serializeFileHeader
      { header_field := (66, 77), size := 126, reserved1 := 0, reserved2 := 0,
        offset := 122 } ++
    (serializeInfoHeader
        { header_size := 108, bitmap_width := 1, bitmap_height := 1,
          n_color_planes := 1, bits_per_pixel := 32, compression_method := 0,
          image_size := 4, horizontal_resolution := 2835,
          vertical_resolution := 2835, n_colors_in_palette := 0,
          important_colors := 0, red_mask := 0x00ff0000,
          green_mask := 0x0000ff00, blue_mask := 0x000000ff,
          alpha_mask := 0xff000000, color_space := S_RGB,
          color_end_points := List.replicate 9 0, red_gamma := 0,
          green_gamma := 0, blue_gamma := 0 } ++ [9, 9, 9, 9])

set_option maxRecDepth 100000 in
/-- C6 counterexample: on a well-formed 32bpp stream whose header height
is the bit pattern of -1, the claim requires the single stored row
`[9, 9, 9, 9]` (at stream offset 122) to land at the start of the output
buffer, but the decoder's row loop runs zero times for a negative signed
height, so byte 0 of the buffer is not the stored 9. -/
theorem decode_negative_height_counterexample :
    toI32 (parseInfoHeader negHeightStream).bitmap_height = -1 ∧
      negHeightStream.getD 122 0 = 9 ∧
      (ReadBitMap negHeightStream).pixels.getD 0 0 = 0 ∧
      (0 : Nat) ≠ 9 := by
  refine ⟨by decide, by decide, by decide, by decide⟩

set_option maxRecDepth 100000 in
theorem decode_packs_rows_positive_height_witness :
    (parseInfoHeader posHeightStream).bits_per_pixel = 32 ∧
      ((32 : Nat) = 24 ∨ (32 : Nat) = 32) ∧
      (parseInfoHeader posHeightStream).bitmap_width = 1 ∧
      (32 : Nat) * 1 + 31 < 2147483648 ∧
      (parseInfoHeader posHeightStream).bitmap_height = 1 ∧
      (parseFileHeader posHeightStream).offset = 122 ∧
      (parseInfoHeader posHeightStream).image_size = ROW_SIZE 32 1 * 1 ∧
      122 + ROW_SIZE 32 1 * 1 ≤ posHeightStream.length ∧
      (∀ y, y < 1 → ∀ i, i < 1 * (32 / 8) →
        (ReadBitMap posHeightStream).pixels.getD (y * (1 * (32 / 8)) + i) 0
          = posHeightStream.getD (122 + y * ROW_SIZE 32 1 + i) 0) := by
  refine ⟨by decide, Or.inr rfl, by decide, by decide, by decide, by decide,
    by decide, by decide, ?_⟩
  exact decode_packs_rows_positive_height posHeightStream 1 1 32 122
    (by decide) (Or.inr rfl) (by decide) (by decide) (by decide) (by decide)
    (by decide) (by decide) (by decide)

/-- The encoder's padded pixel buffer: it has length `row_size * height`,
and byte `i` of padded row `y` (for `i` below the meaningful
`width * pixel_size` bytes) is input byte `y * width*pixel_size + i`. -/
theorem generate_pixels_spec (w h bpp : Nat) (pixels : List Nat)
    (compression : Nat) (hwpos : 0 < w) (hbpp : bpp = 24 ∨ bpp = 32)
    (hpix : pixels.length = w * h * (bpp / 8))
    (hnowrap : ROW_SIZE bpp w * h < 4294967296) :
    (GenerateBitMapData (w : Int) (h : Int) bpp pixels compression).pixels.length
        = ROW_SIZE bpp w * h ∧
      ∀ y, y < h → ∀ i, i < w * (bpp / 8) →
        (GenerateBitMapData (w : Int) (h : Int) bpp pixels compression).pixels.getD
            (y * ROW_SIZE bpp w + i) 0 = pixels.getD (y * (w * (bpp / 8)) + i) 0 := by
  have hwN : ((w : Int)).toNat = w := by omega
  have hhN : ((h : Int)).toNat = h := by omega
  have hrs4 : 4 ≤ ROW_SIZE bpp w := by
    rcases hbpp with hb | hb <;> subst hb <;> (unfold ROW_SIZE; omega)
  have hh32 : h < 4294967296 := by
    have h1 : 4 * h ≤ ROW_SIZE bpp w * h := Nat.mul_le_mul_right h hrs4
    have h2 : 4 * h < 4294967296 := lt_of_le_of_lt h1 hnowrap
    omega
  have htoU32h : toU32 (h : Int) = h := by unfold toU32; omega
  have hwps : w * (bpp / 8) ≤ ROW_SIZE bpp w := wps_le_row_size w bpp hbpp
  have hassoc : h * (w * (bpp / 8)) = w * h * (bpp / 8) := by ring
  have hchunk : ∀ k, k < h →
      ((pixels.drop (k * (w * (bpp / 8)))).take (w * (bpp / 8)) ++
        List.replicate (ROW_SIZE bpp w - w * (bpp / 8)) 0).length = ROW_SIZE bpp w := by
    intro k hk
    have hple : (k + 1) * (w * (bpp / 8)) ≤ h * (w * (bpp / 8)) :=
      Nat.mul_le_mul_right _ hk
    have h2 : k * (w * (bpp / 8)) + w * (bpp / 8) ≤ w * h * (bpp / 8) := by
      rw [← hassoc, ← Nat.succ_mul]
      exact hple
    rw [List.length_append, List.length_replicate, List.length_take,
      List.length_drop, hpix]
    rw [Nat.min_eq_left (Nat.le_sub_of_add_le (by rw [Nat.add_comm]; exact h2))]
    exact Nat.add_sub_cancel' hwps
  have hbodylen :
      ((List.range h).flatMap (fun y =>
        (pixels.drop (y * (w * (bpp / 8)))).take (w * (bpp / 8)) ++
          List.replicate (ROW_SIZE bpp w - w * (bpp / 8)) 0)).length
        = h * ROW_SIZE bpp w :=
    length_flatMap_uniform _ (ROW_SIZE bpp w) h hchunk
  simp only [GenerateBitMapData, IMAGE_SIZE, hwN, hhN, htoU32h]
  rw [Nat.mod_eq_of_lt hnowrap]
  constructor
  · rw [List.length_append, hbodylen, List.length_replicate, Nat.mul_comm h,
      Nat.sub_self, Nat.add_zero]
  · intro y hy i hi
    have h1 : y * ROW_SIZE bpp w + i < (y + 1) * ROW_SIZE bpp w := by
      rw [Nat.succ_mul]
      exact Nat.add_lt_add_left (lt_of_lt_of_le hi hwps) _
    have h2 : (y + 1) * ROW_SIZE bpp w ≤ h * ROW_SIZE bpp w :=
      Nat.mul_le_mul_right _ hy
    have hidx : y * ROW_SIZE bpp w + i < h * ROW_SIZE bpp w :=
      lt_of_lt_of_le h1 h2
    rw [List.getD_append _ _ _ _ (by rw [hbodylen]; exact hidx)]
    rw [flatMap_uniform_getD _ (ROW_SIZE bpp w) y i (lt_of_lt_of_le hi hwps) h hy hchunk]
    have hple : (y + 1) * (w * (bpp / 8)) ≤ h * (w * (bpp / 8)) :=
      Nat.mul_le_mul_right _ hy
    have h3 : y * (w * (bpp / 8)) + w * (bpp / 8) ≤ w * h * (bpp / 8) := by
      rw [← hassoc, ← Nat.succ_mul]
      exact hple
    have htk : i < ((pixels.drop (y * (w * (bpp / 8)))).take (w * (bpp / 8))).length := by
      rw [List.length_take, List.length_drop, hpix,
        Nat.min_eq_left (Nat.le_sub_of_add_le (by rw [Nat.add_comm]; exact h3))]
      exact hi
    rw [List.getD_append _ _ _ _ htk]
    simp [List.getD_eq_getElem?_getD, List.getElem?_take_of_lt hi, List.getElem?_drop]

/-- C2 amended: for width > 0, positive height, bits_per_pixel in
{24, 32}, and total sizes inside `uint32_t` range, the encoder's
`image_size` equals `row_size * height` and the file header's `size`
equals `sizeof(BITMAPFILEHEADER) + sizeof(BITMAPV4HEADER) + image_size` =
14 + 108 + image_size.  (For negative heights the `uint32_t` product
`row_size * (uint32_t)height` wraps mod 2^32 and is not
`row_size * |height|` — see the counterexample.) -/
theorem image_size_and_file_size_positive_height (width height : Int)
    (bpp : Nat) (pixels : List Nat) (compression : Nat)
    (hwpos : 0 < width) (hhpos : 0 < height)
    (hbpp : bpp = 24 ∨ bpp = 32)
    (hbound : ROW_SIZE bpp width.toNat * height.toNat + 122 < 4294967296) :
    (GenerateBitMapData width height bpp pixels compression).info_header.image_size
        = ROW_SIZE bpp width.toNat * height.toNat ∧
      (GenerateBitMapData width height bpp pixels compression).file_header.size
        = 14 + 108 +
          (GenerateBitMapData width height bpp pixels compression).info_header.image_size := by
  have hrs4 : 4 ≤ ROW_SIZE bpp width.toNat := by
    rcases hbpp with hb | hb <;> subst hb <;> (unfold ROW_SIZE; omega)
  have hlt : ROW_SIZE bpp width.toNat * height.toNat < 4294967296 :=
    lt_of_le_of_lt (Nat.le_add_right _ 122) hbound
  have h4 : 4 * height.toNat < 4294967296 :=
    lt_of_le_of_lt (Nat.mul_le_mul_right _ hrs4) hlt
  have hh32 : toU32 height = height.toNat := by unfold toU32; omega
  have hsum : 14 + 108 + ROW_SIZE bpp width.toNat * height.toNat < 4294967296 := by
    have := hbound
    linarith
  constructor
  · simp only [GenerateBitMapData, IMAGE_SIZE, hh32]
    exact Nat.mod_eq_of_lt hlt
  · simp only [GenerateBitMapData, IMAGE_SIZE, hh32]
    rw [Nat.mod_eq_of_lt hlt, Nat.mod_eq_of_lt hsum]

theorem image_size_and_file_size_positive_height_witness :
    (0 : Int) < 1 ∧ (0 : Int) < 1 ∧ ((24 : Nat) = 24 ∨ (24 : Nat) = 32) ∧
      ROW_SIZE 24 ((1 : Int)).toNat * ((1 : Int)).toNat + 122 < 4294967296 ∧
      ((GenerateBitMapData 1 1 24 [1, 2, 3] 0).info_header.image_size
          = ROW_SIZE 24 ((1 : Int)).toNat * ((1 : Int)).toNat ∧
        (GenerateBitMapData 1 1 24 [1, 2, 3] 0).file_header.size
          = 14 + 108 + (GenerateBitMapData 1 1 24 [1, 2, 3] 0).info_header.image_size) := by
  refine ⟨by decide, by decide, Or.inl rfl, by decide, ?_⟩
  exact image_size_and_file_size_positive_height 1 1 24 [1, 2, 3] 0
    (by decide) (by decide) (Or.inl rfl) (by decide)

/-- C2 counterexample: at width 1, height -1 (a legal nonzero height),
32bpp, the `uint32_t` computation `image_size = row_size * height` wraps:
the encoder records 4294967292, not `row_size * |height| = 4`. -/
theorem image_size_negative_height_counterexample :
    (GenerateBitMapData 1 (-1) 32 [0, 0, 0, 0] 0).info_header.image_size
        = 4294967292 ∧
      ROW_SIZE 32 1 * ((-1 : Int)).natAbs = 4 ∧
      (4294967292 : Nat) ≠ 4 := by
  refine ⟨by decide, by decide, by decide⟩

/-- C1: for every width > 0, height > 0, bits_per_pixel in {24, 32} and
unpadded input buffer of exactly `width*height*(bpp/8)` bytes (with the
arithmetic inside machine-integer range), decoding the byte stream
produced by writing the encoded image gives back a pixel buffer whose
packed rows equal the corresponding rows of the original input,
byte for byte (padding excluded). -/
theorem encode_write_decode_roundtrip (w h bpp : Nat) (pixels : List Nat)
    (compression : Nat)
    (hwpos : 0 < w) (hhpos : 0 < h)
    (hbpp : bpp = 24 ∨ bpp = 32)
    (hpix : pixels.length = w * h * (bpp / 8))
    (hwnum : bpp * w + 31 < 2147483648)
    (hhr : h < 2147483648)
    (hnowrap : ROW_SIZE bpp w * h < 4294967296) :
    ∀ y, y < h → ∀ i, i < w * (bpp / 8) →
      (ReadBitMap (WriteToBitMapFile
          (GenerateBitMapData (w : Int) (h : Int) bpp pixels compression))).pixels.getD
        (y * (w * (bpp / 8)) + i) 0
      = pixels.getD (y * (w * (bpp / 8)) + i) 0 := by
  intro y hy i hi
  have hwr : w < 2147483648 := by rcases hbpp with hb | hb <;> subst hb <;> omega
  have hbpplt : bpp < 65536 := by rcases hbpp with hb | hb <;> subst hb <;> omega
  have hwN : ((w : Int)).toNat = w := by omega
  have htoU32w : toU32 (w : Int) = w := by unfold toU32; omega
  have htoU32h : toU32 (h : Int) = h := by
    unfold toU32
    have hrs4 : 4 ≤ ROW_SIZE bpp w := by
      rcases hbpp with hb | hb <;> subst hb <;> (unfold ROW_SIZE; omega)
    have h4 : 4 * h < 4294967296 :=
      lt_of_le_of_lt (Nat.mul_le_mul_right _ hrs4) hnowrap
    omega
  have hwps : w * (bpp / 8) ≤ ROW_SIZE bpp w := wps_le_row_size w bpp hbpp
  set G := GenerateBitMapData (w : Int) (h : Int) bpp pixels compression with hG
  have gps := generate_pixels_spec w h bpp pixels compression hwpos hbpp hpix hnowrap
  rw [← hG] at gps
  have e_off : G.file_header.offset = 14 + 108 := by rw [hG]; rfl
  have e_bpp : G.info_header.bits_per_pixel = bpp % 65536 := by rw [hG]; rfl
  have e_w : G.info_header.bitmap_width = toU32 (w : Int) := by rw [hG]; rfl
  have e_h : G.info_header.bitmap_height = toU32 (h : Int) := by rw [hG]; rfl
  have e_is : G.info_header.image_size
      = IMAGE_SIZE (ROW_SIZE bpp ((w : Int)).toNat) (toU32 (h : Int)) % 4294967296 := by
    rw [hG]; rfl
  rw [htoU32w] at e_w
  rw [htoU32h] at e_h
  rw [hwN, htoU32h, IMAGE_SIZE, Nat.mod_eq_of_lt hnowrap] at e_is
  have hBS : WriteToBitMapFile G = serializeFileHeader G.file_header ++
      (serializeInfoHeader G.info_header ++ G.pixels.take G.info_header.image_size) := by
    rw [WriteToBitMapFile]
  have hpw : (parseInfoHeader (WriteToBitMapFile G)).bitmap_width = w := by
    rw [hBS, parse_width_of_serialize, e_w, Nat.mod_eq_of_lt (by omega)]
  have hph : (parseInfoHeader (WriteToBitMapFile G)).bitmap_height = h := by
    rw [hBS, parse_height_of_serialize, e_h, Nat.mod_eq_of_lt (by omega)]
  have hpbpp : (parseInfoHeader (WriteToBitMapFile G)).bits_per_pixel = bpp := by
    rw [hBS, parse_bpp_of_serialize, e_bpp]
    omega
  have hpo : (parseFileHeader (WriteToBitMapFile G)).offset = 122 := by
    rw [hBS, parse_offset_of_serialize, e_off]
  have hpis : (parseInfoHeader (WriteToBitMapFile G)).image_size
      = ROW_SIZE bpp w * h := by
    rw [hBS, parse_image_size_of_serialize, e_is, Nat.mod_eq_of_lt hnowrap]
  have hlenBS : (WriteToBitMapFile G).length = 122 + ROW_SIZE bpp w * h := by
    rw [hBS, List.length_append, List.length_append, length_serializeFileHeader,
      length_serializeInfoHeader, List.length_take, e_is, gps.1, Nat.min_self,
      ← Nat.add_assoc]
  have hstream : ∀ j, j < ROW_SIZE bpp w * h →
      (WriteToBitMapFile G).getD (122 + j) 0 = G.pixels.getD j 0 := by
    intro j hj
    rw [hBS,
      List.getD_append_right _ _ _ _ (by rw [length_serializeFileHeader]; omega),
      length_serializeFileHeader,
      List.getD_append_right _ _ _ _ (by rw [length_serializeInfoHeader]; omega),
      length_serializeInfoHeader]
    have hidx : 122 + j - 14 - 108 = j := by omega
    rw [hidx, e_is]
    simp [List.getD_eq_getElem?_getD, List.getElem?_take_of_lt hj]
  have dec := decode_packs_rows_positive_height (WriteToBitMapFile G) w h bpp 122
    hpbpp hbpp hpw hwnum hph hhr hpo hpis (le_of_eq hlenBS.symm) y hy i hi
  rw [dec]
  have h1 : y * ROW_SIZE bpp w + i < (y + 1) * ROW_SIZE bpp w := by
    rw [Nat.succ_mul]
    exact Nat.add_lt_add_left (lt_of_lt_of_le hi hwps) _
  have h2 : (y + 1) * ROW_SIZE bpp w ≤ h * ROW_SIZE bpp w :=
    Nat.mul_le_mul_right _ hy
  have hyRi : y * ROW_SIZE bpp w + i < ROW_SIZE bpp w * h :=
    lt_of_lt_of_le h1 (le_trans h2 (le_of_eq (Nat.mul_comm h _)))
  rw [Nat.add_assoc, hstream (y * ROW_SIZE bpp w + i) hyRi]
  exact gps.2 y hy i hi

theorem encode_write_decode_roundtrip_witness :
    (0 : Nat) < 1 ∧ (0 : Nat) < 1 ∧ ((24 : Nat) = 24 ∨ (24 : Nat) = 32) ∧
      ([5, 6, 7] : List Nat).length = 1 * 1 * (24 / 8) ∧
      (24 : Nat) * 1 + 31 < 2147483648 ∧ (1 : Nat) < 2147483648 ∧
      ROW_SIZE 24 1 * 1 < 4294967296 ∧
      (∀ y, y < 1 → ∀ i, i < 1 * (24 / 8) →
        (ReadBitMap (WriteToBitMapFile
            (GenerateBitMapData ((1 : Nat) : Int) ((1 : Nat) : Int) 24 [5, 6, 7] 0))).pixels.getD
          (y * (1 * (24 / 8)) + i) 0
        = ([5, 6, 7] : List Nat).getD (y * (1 * (24 / 8)) + i) 0) := by
  refine ⟨by decide, by decide, Or.inl rfl, by decide, by decide, by decide,
    by decide, ?_⟩
  exact encode_write_decode_roundtrip 1 1 24 [5, 6, 7] 0 (by decide) (by decide)
    (Or.inl rfl) (by decide) (by decide) (by decide) (by decide)

theorem length_invertStep (px : List Nat) (k : Nat) :
    (invertStep px k).length = px.length := by
  simp [invertStep]

theorem invertStep_getD (px : List Nat) (k j : Nat) (hk : 4 * k + 2 < px.length) :
    (invertStep px k).getD j 0 =
      if 4 * k ≤ j ∧ j ≤ 4 * k + 2 then 255 - px.getD j 0 else px.getD j 0 := by
  simp only [invertStep]
  set px1 := px.set (4 * k) (255 - px.getD (4 * k) 0) with hpx1
  set px2 := px1.set (4 * k + 1) (255 - px1.getD (4 * k + 1) 0) with hpx2
  have hl1 : px1.length = px.length := by rw [hpx1, List.length_set]
  have hl2 : px2.length = px.length := by rw [hpx2, List.length_set, hl1]
  have hg1 : px1.getD (4 * k + 1) 0 = px.getD (4 * k + 1) 0 := by
    rw [hpx1]; exact getD_set_ne _ _ (by omega)
  have hg2 : px2.getD (4 * k + 2) 0 = px.getD (4 * k + 2) 0 := by
    have a1 : px2.getD (4 * k + 2) 0 = px1.getD (4 * k + 2) 0 := by
      rw [hpx2]; exact getD_set_ne _ _ (by omega)
    have a2 : px1.getD (4 * k + 2) 0 = px.getD (4 * k + 2) 0 := by
      rw [hpx1]; exact getD_set_ne _ _ (by omega)
    rw [a1, a2]
  by_cases h0 : j = 4 * k
  · subst h0
    rw [if_pos (by omega)]
    have b1 : (px2.set (4 * k + 2) (255 - px2.getD (4 * k + 2) 0)).getD (4 * k) 0
        = px2.getD (4 * k) 0 := getD_set_ne _ _ (by omega)
    have b2 : px2.getD (4 * k) 0 = px1.getD (4 * k) 0 := by
      rw [hpx2]; exact getD_set_ne _ _ (by omega)
    have b3 : px1.getD (4 * k) 0 = 255 - px.getD (4 * k) 0 := by
      rw [hpx1]; exact getD_set_eq _ _ _ (by omega)
    rw [b1, b2, b3]
  · by_cases h1 : j = 4 * k + 1
    · subst h1
      rw [if_pos (by omega)]
      have c1 : (px2.set (4 * k + 2) (255 - px2.getD (4 * k + 2) 0)).getD (4 * k + 1) 0
          = px2.getD (4 * k + 1) 0 := getD_set_ne _ _ (by omega)
      have c2 : px2.getD (4 * k + 1) 0 = 255 - px1.getD (4 * k + 1) 0 := by
        rw [hpx2]; exact getD_set_eq _ _ _ (by omega)
      rw [c1, c2, hg1]
    · by_cases h2 : j = 4 * k + 2
      · subst h2
        rw [if_pos (by omega)]
        have d1 : (px2.set (4 * k + 2) (255 - px2.getD (4 * k + 2) 0)).getD (4 * k + 2) 0
            = 255 - px2.getD (4 * k + 2) 0 := getD_set_eq _ _ _ (by omega)
        rw [d1, hg2]
      · rw [if_neg (by omega)]
        calc (px2.set (4 * k + 2) (255 - px2.getD (4 * k + 2) 0)).getD j 0
            = px2.getD j 0 := getD_set_ne _ _ (by omega)
          _ = px1.getD j 0 := by rw [hpx2]; exact getD_set_ne _ _ (by omega)
          _ = px.getD j 0 := by rw [hpx1]; exact getD_set_ne _ _ (by omega)

theorem invertFold_length (px : List Nat) (n : Nat) :
    ((List.range n).foldl invertStep px).length = px.length := by
  induction n with
  | zero => simp
  | succ n ih =>
    rw [List.range_succ, List.foldl_append]
    simp only [List.foldl_cons, List.foldl_nil]
    rw [length_invertStep, ih]

theorem invertFold_getD (px : List Nat) (j : Nat) :
    ∀ n, 4 * n ≤ px.length →
      ((List.range n).foldl invertStep px).getD j 0 =
        if j < 4 * n ∧ j % 4 < 3 then 255 - px.getD j 0 else px.getD j 0 := by
  intro n
  induction n with
  | zero => intro _; simp
  | succ n ih =>
    intro hn
    rw [List.range_succ, List.foldl_append]
    simp only [List.foldl_cons, List.foldl_nil]
    have hB := invertFold_length px n
    rw [invertStep_getD _ _ _ (by omega), ih (by omega)]
    by_cases hcase : 4 * n ≤ j ∧ j ≤ 4 * n + 2
    · rw [if_pos hcase, if_neg (by omega), if_pos (by omega)]
    · rw [if_neg hcase]
      by_cases h2 : j < 4 * n ∧ j % 4 < 3
      · rw [if_pos h2, if_pos (by omega)]
      · rw [if_neg h2, if_neg (by omega)]

/-- C7 counterexample: on a 24bpp-layout buffer of 12 bytes (four 3-byte
pixels, all zero) the claim requires every channel byte — in particular
byte 3, the blue channel of the second 24bpp pixel — to become
255 - 0 = 255, but the loop advances by a hardcoded stride of 4 and leaves
byte 3 (treated as an alpha byte) unchanged at 0.  Moreover with
`image_size = 2` the loop accesses index 2, which is not `< image_size`,
contradicting the never-reads-past part of the claim. -/
theorem invert_stride_and_oob_counterexample :
    (InvertPixel (List.replicate 12 0) 12).getD 3 0 = 0 ∧ (0 : Nat) ≠ 255 ∧
      2 ∈ invertAccessedIndices 2 ∧ ¬ (2 < 2) := by decide

/-- C7 amended: `InvertPixel` advances by a hardcoded 4-byte stride
regardless of the buffer's pixel format: for `image_size` a multiple of 4
and a buffer of exactly `image_size` bytes, every byte at offset 0, 1 or 2
of each 4-byte group is replaced by 255 minus its value, every byte at
offset 3 is left unchanged, the buffer length is preserved, and no index
at or past `image_size` is accessed. -/
theorem invert_fixed_stride_behavior (pixels : List Nat) (image_size : Nat)
    (hlen : pixels.length = image_size) (hmul : image_size % 4 = 0) :
    (∀ j, j < image_size →
        (InvertPixel pixels image_size).getD j 0 =
          if j % 4 < 3 then 255 - pixels.getD j 0 else pixels.getD j 0) ∧
      (InvertPixel pixels image_size).length = pixels.length ∧
      (∀ j ∈ invertAccessedIndices image_size, j < image_size) := by
  refine ⟨?_, invertFold_length pixels _, ?_⟩
  · intro j hj
    rw [InvertPixel, invertFold_getD pixels j _ (by omega)]
    by_cases h3 : j % 4 < 3
    · rw [if_pos ⟨by omega, h3⟩, if_pos h3]
    · rw [if_neg (by omega), if_neg h3]
  · intro j hjmem
    simp only [invertAccessedIndices, List.mem_flatMap, List.mem_range] at hjmem
    obtain ⟨k, hk, hjk⟩ := hjmem
    simp only [List.mem_cons, List.not_mem_nil, or_false] at hjk
    omega

theorem invert_fixed_stride_behavior_witness :
    (List.replicate 8 (10 : Nat)).length = 8 ∧ (8 : Nat) % 4 = 0 ∧
      ((∀ j, j < 8 →
          (InvertPixel (List.replicate 8 10) 8).getD j 0 =
            if j % 4 < 3 then 255 - (List.replicate 8 (10 : Nat)).getD j 0
            else (List.replicate 8 (10 : Nat)).getD j 0) ∧
        (InvertPixel (List.replicate 8 10) 8).length =
          (List.replicate 8 (10 : Nat)).length ∧
        (∀ j ∈ invertAccessedIndices 8, j < 8)) :=
  ⟨by decide, by decide,
    invert_fixed_stride_behavior (List.replicate 8 10) 8 (by decide) (by decide)⟩

/-- C9: for every resource state of a `BITMAP`, including
partially-constructed ones, `cleanup` frees the pixel buffer exactly when
it is present and closes the stream exactly when it is present; each
absent resource yields a diagnostic instead, the other release still
happens, and both pointer fields end up NULL. -/
theorem cleanup_releases_resources_independently (s : ResourceState) :
    (CleanupAction.freePixels ∈ (cleanup (some s)).2 ↔ s.pixels = true) ∧
      (CleanupAction.closeFile ∈ (cleanup (some s)).2 ↔ s.file = true) ∧
      (CleanupAction.diagnostic "bmp->pixels is NULL. Not freeing!" ∈ (cleanup (some s)).2
        ↔ s.pixels = false) ∧
      (CleanupAction.diagnostic "bmp->file is NULL. Not closing!" ∈ (cleanup (some s)).2
        ↔ s.file = false) ∧
      (cleanup (some s)).1 = some ⟨false, false⟩ := by
  rcases s with ⟨p, f⟩
  cases p <;> cases f <;> decide

/-- C8 (code bug): `SetPixel(1, 0, ...)` on a 1×1 32bpp image computes
byte index 4 into the 4-byte pixel buffer, i.e. every one of its four
stores lands at or past the end of the buffer, and the function has no
error reporting at all — the claim's required bounds error does not
exist in the code. -/
theorem set_pixel_out_of_range_writes_out_of_bounds :
    SetPixelIndex 1 0 (GenerateBitMapData 1 1 32 [1, 2, 3, 4] 3) = 4 ∧
      (GenerateBitMapData 1 1 32 [1, 2, 3, 4] 3).pixels.length = 4 ∧
      ¬ (SetPixelIndex 1 0 (GenerateBitMapData 1 1 32 [1, 2, 3, 4] 3) <
          (GenerateBitMapData 1 1 32 [1, 2, 3, 4] 3).pixels.length) := by
  refine ⟨by decide, by decide, by decide⟩

/-- C10: for every 32bpp image and in-range coordinates (x < width,
y < height, pixel buffer of the full 4·width·height bytes), `SetPixel`
writes exactly the four bytes at `(y*width + x)*4 .. +3` in storage order
B, G, R, A from the given r, g, b, a arguments; every other pixel byte,
the buffer length, and both headers are unchanged. -/
theorem set_pixel_in_range_frame_effect (bmp : BITMAP) (w h x y r g b a : Nat)
    (hbpp : bmp.info_header.bits_per_pixel = 32)
    (hw : bmp.info_header.bitmap_width = w)
    (hh : bmp.info_header.bitmap_height = h)
    (hlen : bmp.pixels.length = 4 * (w * h))
    (hx : x < w) (hy : y < h)
    (hsize : 4 * (w * h) < 4294967296)
    (hr : r < 256) (hg : g < 256) (hb : b < 256) (ha : a < 256) :
    (SetPixel x y r g b a bmp).pixels.getD ((y * w + x) * 4) 0 = b ∧
      (SetPixel x y r g b a bmp).pixels.getD ((y * w + x) * 4 + 1) 0 = g ∧
      (SetPixel x y r g b a bmp).pixels.getD ((y * w + x) * 4 + 2) 0 = r ∧
      (SetPixel x y r g b a bmp).pixels.getD ((y * w + x) * 4 + 3) 0 = a ∧
      (∀ j, j < bmp.pixels.length →
        (j < (y * w + x) * 4 ∨ (y * w + x) * 4 + 3 < j) →
        (SetPixel x y r g b a bmp).pixels.getD j 0 = bmp.pixels.getD j 0) ∧
      (SetPixel x y r g b a bmp).pixels.length = bmp.pixels.length ∧
      (SetPixel x y r g b a bmp).file_header = bmp.file_header ∧
      (SetPixel x y r g b a bmp).info_header = bmp.info_header := by
  have hwx : y * w + x < w * h := by
    have h1 : (y + 1) * w ≤ h * w := Nat.mul_le_mul_right w hy
    have h2 : y * w + x < (y + 1) * w := by
      rw [Nat.add_mul, Nat.one_mul]; omega
    have h3 : h * w = w * h := Nat.mul_comm h w
    omega
  have hm1 : y * w + x < 4294967296 := by omega
  have hm2 : (y * w + x) * 4 < 4294967296 := by omega
  have hi3 : (y * w + x) * 4 + 3 < bmp.pixels.length := by omega
  have hidx : SetPixelIndex x y bmp = (y * w + x) * 4 := by
    rw [SetPixelIndex, hw, Nat.mod_eq_of_lt hm1, Nat.mod_eq_of_lt hm2]
  simp only [SetPixel, hidx]
  set i := (y * w + x) * 4 with hidef
  set q0 := bmp.pixels with hq0
  set q1 := q0.set i (b % 256) with hq1
  set q2 := q1.set (i + 1) (g % 256) with hq2
  set q3 := q2.set (i + 2) (r % 256) with hq3
  have hl1 : q1.length = q0.length := by rw [hq1, List.length_set]
  have hl2 : q2.length = q0.length := by rw [hq2, List.length_set, hl1]
  have hl3 : q3.length = q0.length := by rw [hq3, List.length_set, hl2]
  refine ⟨?_, ?_, ?_, ?_, ?_, ?_, by trivial, by trivial⟩
  · have s3 : (q3.set (i + 3) (a % 256)).getD i 0 = q3.getD i 0 :=
      getD_set_ne _ _ (by omega)
    have s2 : q3.getD i 0 = q2.getD i 0 := by
      rw [hq3]; exact getD_set_ne _ _ (by omega)
    have s1 : q2.getD i 0 = q1.getD i 0 := by
      rw [hq2]; exact getD_set_ne _ _ (by omega)
    have s0 : q1.getD i 0 = b % 256 := by
      rw [hq1]; exact getD_set_eq _ _ _ (by omega)
    rw [s3, s2, s1, s0, Nat.mod_eq_of_lt hb]
  · have s3 : (q3.set (i + 3) (a % 256)).getD (i + 1) 0 = q3.getD (i + 1) 0 :=
      getD_set_ne _ _ (by omega)
    have s2 : q3.getD (i + 1) 0 = q2.getD (i + 1) 0 := by
      rw [hq3]; exact getD_set_ne _ _ (by omega)
    have s1 : q2.getD (i + 1) 0 = g % 256 := by
      rw [hq2]; exact getD_set_eq _ _ _ (by omega)
    rw [s3, s2, s1, Nat.mod_eq_of_lt hg]
  · have s3 : (q3.set (i + 3) (a % 256)).getD (i + 2) 0 = q3.getD (i + 2) 0 :=
      getD_set_ne _ _ (by omega)
    have s2 : q3.getD (i + 2) 0 = r % 256 := by
      rw [hq3]; exact getD_set_eq _ _ _ (by omega)
    rw [s3, s2, Nat.mod_eq_of_lt hr]
  · have s3 : (q3.set (i + 3) (a % 256)).getD (i + 3) 0 = a % 256 :=
      getD_set_eq _ _ _ (by omega)
    rw [s3, Nat.mod_eq_of_lt ha]
  · intro j hjlen hout
    calc (q3.set (i + 3) (a % 256)).getD j 0
        = q3.getD j 0 := getD_set_ne _ _ (by omega)
      _ = q2.getD j 0 := by rw [hq3]; exact getD_set_ne _ _ (by omega)
      _ = q1.getD j 0 := by rw [hq2]; exact getD_set_ne _ _ (by omega)
      _ = q0.getD j 0 := by rw [hq1]; exact getD_set_ne _ _ (by omega)
  · rw [List.length_set, hl3]

theorem set_pixel_in_range_frame_effect_witness :
    (GenerateBitMapData 2 2 32 scenarioPixels 3).info_header.bits_per_pixel = 32 ∧
      (GenerateBitMapData 2 2 32 scenarioPixels 3).info_header.bitmap_width = 2 ∧
      (GenerateBitMapData 2 2 32 scenarioPixels 3).info_header.bitmap_height = 2 ∧
      (GenerateBitMapData 2 2 32 scenarioPixels 3).pixels.length = 4 * (2 * 2) ∧
      1 < 2 ∧ 0 < 2 ∧ 4 * (2 * 2) < 4294967296 ∧
      5 < 256 ∧ 6 < 256 ∧ 7 < 256 ∧ 8 < 256 ∧
      ((SetPixel 1 0 5 6 7 8 (GenerateBitMapData 2 2 32 scenarioPixels 3)).pixels.getD
          ((0 * 2 + 1) * 4) 0 = 7 ∧
        (SetPixel 1 0 5 6 7 8 (GenerateBitMapData 2 2 32 scenarioPixels 3)).pixels.getD
          ((0 * 2 + 1) * 4 + 1) 0 = 6 ∧
        (SetPixel 1 0 5 6 7 8 (GenerateBitMapData 2 2 32 scenarioPixels 3)).pixels.getD
          ((0 * 2 + 1) * 4 + 2) 0 = 5 ∧
        (SetPixel 1 0 5 6 7 8 (GenerateBitMapData 2 2 32 scenarioPixels 3)).pixels.getD
          ((0 * 2 + 1) * 4 + 3) 0 = 8 ∧
        (∀ j, j < (GenerateBitMapData 2 2 32 scenarioPixels 3).pixels.length →
          (j < (0 * 2 + 1) * 4 ∨ (0 * 2 + 1) * 4 + 3 < j) →
          (SetPixel 1 0 5 6 7 8 (GenerateBitMapData 2 2 32 scenarioPixels 3)).pixels.getD j 0
            = (GenerateBitMapData 2 2 32 scenarioPixels 3).pixels.getD j 0) ∧
        (SetPixel 1 0 5 6 7 8 (GenerateBitMapData 2 2 32 scenarioPixels 3)).pixels.length
          = (GenerateBitMapData 2 2 32 scenarioPixels 3).pixels.length ∧
        (SetPixel 1 0 5 6 7 8 (GenerateBitMapData 2 2 32 scenarioPixels 3)).file_header
          = (GenerateBitMapData 2 2 32 scenarioPixels 3).file_header ∧
        (SetPixel 1 0 5 6 7 8 (GenerateBitMapData 2 2 32 scenarioPixels 3)).info_header
          = (GenerateBitMapData 2 2 32 scenarioPixels 3).info_header) := by
  have hlen : (GenerateBitMapData 2 2 32 scenarioPixels 3).pixels.length = 4 * (2 * 2) := by
    rfl
  have main := set_pixel_in_range_frame_effect (GenerateBitMapData 2 2 32 scenarioPixels 3)
    2 2 1 0 5 6 7 8 rfl rfl rfl hlen
    (by decide) (by decide) (by decide) (by decide) (by decide) (by decide)
    (by decide)
  exact ⟨rfl, rfl, rfl, hlen, by decide, by decide,
    by decide, by decide, by decide, by decide, by decide, main⟩

theorem cleanup_releases_resources_independently_witness :
    (CleanupAction.freePixels ∈ (cleanup (some ⟨true, false⟩)).2
        ↔ (⟨true, false⟩ : ResourceState).pixels = true) ∧
      (CleanupAction.closeFile ∈ (cleanup (some ⟨true, false⟩)).2
        ↔ (⟨true, false⟩ : ResourceState).file = true) ∧
      (CleanupAction.diagnostic "bmp->pixels is NULL. Not freeing!"
          ∈ (cleanup (some ⟨true, false⟩)).2
        ↔ (⟨true, false⟩ : ResourceState).pixels = false) ∧
      (CleanupAction.diagnostic "bmp->file is NULL. Not closing!"
          ∈ (cleanup (some ⟨true, false⟩)).2
        ↔ (⟨true, false⟩ : ResourceState).file = false) ∧
      (cleanup (some ⟨true, false⟩)).1 = some ⟨false, false⟩ :=
  cleanup_releases_resources_independently ⟨true, false⟩

/-- C3: for every width > 0 and bits_per_pixel in {24, 32}, the row size
`((bits_per_pixel*width + 31)/32)*4` is a multiple of 4 and at least
`width*bits_per_pixel/8`. -/
theorem row_size_alignment_and_lower_bound (width bpp : Nat)
    (hw : 0 < width) (hbpp : bpp = 24 ∨ bpp = 32) :
    4 ∣ ROW_SIZE bpp width ∧ width * bpp / 8 ≤ ROW_SIZE bpp width := by
  rcases hbpp with h | h <;> subst h <;>
    exact ⟨⟨(_ * width + 31) / 32, by unfold ROW_SIZE; ring⟩,
      by unfold ROW_SIZE; omega⟩

theorem row_size_alignment_and_lower_bound_witness :
    0 < 1 ∧ (24 = 24 ∨ 24 = 32) ∧
      (4 ∣ ROW_SIZE 24 1 ∧ 1 * 24 / 8 ≤ ROW_SIZE 24 1) :=
  ⟨by decide, Or.inl rfl,
    row_size_alignment_and_lower_bound 1 24 (by decide) (Or.inl rfl)⟩

/-- C4 counterexample: encoding the 2×2 32bpp scenario image yields
`image_size = 16`, not 32 as the claim states (2 rows × row_size 8). -/
theorem encode_2x2_32bpp_image_size_counterexample :
    (GenerateBitMapData 2 2 32 scenarioPixels 3).info_header.image_size = 16 ∧
      (16 : Nat) ≠ 32 := by
  constructor
  · rfl
  · decide

/-- C4 amended: encoding the 2×2 32bpp scenario image produces a
pixel-array offset of 122 = 14 + 108, `row_size = 8`, and
`image_size = 16` (2 rows × 8 bytes, no padding since 2 px × 4 B = 8 is
4-aligned). -/
theorem encode_2x2_32bpp_header_values :
    (GenerateBitMapData 2 2 32 scenarioPixels 3).file_header.offset = 122 ∧
      ROW_SIZE 32 2 = 8 ∧
      (GenerateBitMapData 2 2 32 scenarioPixels 3).info_header.image_size = 16 := by
  exact ⟨rfl, rfl, rfl⟩

/-- C5 counterexample: at 24 bits per pixel the encoder still writes the
ASCII-packed sRGB value into the color-space field, so the field is not
left zero as the claim states. -/
theorem color_space_24bpp_counterexample :
    (GenerateBitMapData 1 1 24 [0, 0, 0] 0).info_header.color_space =
        0x42475273 ∧
      (0x42475273 : Nat) ≠ 0 := by
  exact ⟨rfl, by decide⟩

/-- C5 amended: the four channel bitmasks get their fixed nonzero values
exactly when `bits_per_pixel = 32` and are zero otherwise, but the
color-space tag is always the ASCII-packed sRGB value, at every depth. -/
theorem masks_iff_32bpp_color_space_always_srgb (width height : Int)
    (bpp : Nat) (pixels : List Nat) (compression : Nat) :
    (GenerateBitMapData width height bpp pixels compression).info_header.red_mask
        = (if bpp = 32 then 0x00ff0000 else 0) ∧
      (GenerateBitMapData width height bpp pixels compression).info_header.green_mask
        = (if bpp = 32 then 0x0000ff00 else 0) ∧
      (GenerateBitMapData width height bpp pixels compression).info_header.blue_mask
        = (if bpp = 32 then 0x000000ff else 0) ∧
      (GenerateBitMapData width height bpp pixels compression).info_header.alpha_mask
        = (if bpp = 32 then 0xff000000 else 0) ∧
      (GenerateBitMapData width height bpp pixels compression).info_header.color_space
        = S_RGB := by
  exact ⟨rfl, rfl, rfl, rfl, rfl⟩

theorem masks_iff_32bpp_color_space_always_srgb_witness :
    (GenerateBitMapData 1 1 24 [0, 1, 2] 0).info_header.red_mask
        = (if (24 : Nat) = 32 then 0x00ff0000 else 0) ∧
      (GenerateBitMapData 1 1 24 [0, 1, 2] 0).info_header.green_mask
        = (if (24 : Nat) = 32 then 0x0000ff00 else 0) ∧
      (GenerateBitMapData 1 1 24 [0, 1, 2] 0).info_header.blue_mask
        = (if (24 : Nat) = 32 then 0x000000ff else 0) ∧
      (GenerateBitMapData 1 1 24 [0, 1, 2] 0).info_header.alpha_mask
        = (if (24 : Nat) = 32 then 0xff000000 else 0) ∧
      (GenerateBitMapData 1 1 24 [0, 1, 2] 0).info_header.color_space = S_RGB :=
  masks_iff_32bpp_color_space_always_srgb 1 1 24 [0, 1, 2] 0

end Bitmap
